import Mathlib

/-!
Verification of the TRXO "soft gateway" client scripts
(`docs/javascripts/gateway.js` and `docs/javascripts/email-validation.js`).

The scripts are shallowly embedded: JavaScript string primitives are
re-implemented character-list-wise so that every definition evaluates inside
the kernel, DOM state is passed explicitly, and side effects (redirects,
style changes, storage writes, scheduled timers) are returned as explicit
effect lists.
-/

namespace JsString

/-- JS `s.startsWith(pat)` on the underlying character sequences. -/
def startsWithList : List Char → List Char → Bool
  | _, [] => true
  | [], _ :: _ => false
  | c :: cs, p :: ps => (c == p) && startsWithList cs ps

/-- JS `s.startsWith(pat)` (all strings involved here are ASCII). -/
def jsStartsWith (s pat : String) : Bool :=
  startsWithList s.data pat.data

/-- JS `s.slice(0, -1)`: the string without its last character
(for the ASCII strings used here one char = one UTF-16 unit). -/
def jsSliceDropLast (s : String) : String :=
  String.mk s.data.dropLast

/-- The whitespace characters JS `trim` removes, restricted to the ASCII
range (the inputs treated here are ASCII). -/
def jsIsWhitespace (c : Char) : Bool :=
  c == ' ' || c == '\t' || c == '\n' || c == '\r' ||
    c == Char.ofNat 11 || c == Char.ofNat 12

/-- JS `s.trim()`. -/
def jsTrim (s : String) : String :=
  String.mk (((s.data.dropWhile jsIsWhitespace).reverse.dropWhile jsIsWhitespace).reverse)

/-- JS `s.toLowerCase()` (ASCII case mapping, enough for the inputs here). -/
def jsToLower (s : String) : String :=
  String.mk (s.data.map Char.toLower)

/-- JS `s.split(sep)` for a one-character separator, on character lists.
`split` always returns at least one (possibly empty) segment. -/
def splitOnCharList (sep : Char) : List Char → List (List Char)
  | [] => [[]]
  | c :: cs =>
    match splitOnCharList sep cs with
    | [] => [[]]
    | h :: t => if c == sep then [] :: h :: t else (c :: h) :: t

/-- JS `s.split('@')`. -/
def jsSplitOnAt (s : String) : List String :=
  (splitOnCharList '@' s.data).map String.mk

theorem splitOnCharList_ne_nil (sep : Char) (cs : List Char) :
    splitOnCharList sep cs ≠ [] := by
  cases cs with
  | nil => simp [splitOnCharList]
  | cons c cs =>
    simp only [splitOnCharList]
    cases splitOnCharList sep cs with
    | nil => simp
    | cons h t =>
      by_cases hc : (c == sep) = true <;> simp [hc]

end JsString

namespace Gateway

open JsString

/-- The single localStorage key the scripts use (`gateway.js` line 11). -/
def ACCESS_KEY : String := "trxo_access_granted"

/-- `gateway.js` line 15. -/
def GATEWAY_PATHS : List String :=
  ["/trxo/", "/trxo/index.html", "/", "/index.html"]

/-- The value stored under `ACCESS_KEY`: `none` = key absent. -/
abbrev Store := Option String

/-- `gateway.js` lines 21-27: `getDashboardPath`. -/
def getDashboardPath (path : String) : String :=
  if jsStartsWith path "/trxo" then "/trxo/home/" else "/home/"

/-- `gateway.js` lines 29-35: `getGatewayPath`. -/
def getGatewayPath (path : String) : String :=
  if jsStartsWith path "/trxo" then "/trxo/" else "/"

/-- `gateway.js` lines 38-42: `isGatewayPage`;
`GATEWAY_PATHS.some(p => path === p || path === p.slice(0, -1))`. -/
def isGatewayPage (path : String) : Bool :=
  GATEWAY_PATHS.any (fun p => path == p || path == jsSliceDropLast p)

/-- The boolean the enforcement read produces from an available store:
`localStorage.getItem(ACCESS_KEY) === 'true'` (`gateway.js` line 46). -/
def hasAccessOf (v : Store) : Bool := v == some "true"

/-- Modelled from the spec: "a path is Gateway if it equals, or equals up to
a trailing slash, any pattern in `{"/", "/index.html"}` or the same patterns
prefixed by the deployment's base segment". Equality up to a trailing slash
is taken generously in both directions. -/
def eqUpToTrailingSlash (a b : String) : Bool :=
  a == b || String.mk (a.data ++ ['/']) == b || a == String.mk (b.data ++ ['/'])

/-- Modelled from the spec: the spec's Gateway classification rule. -/
def specIsGateway (path : String) : Bool :=
  GATEWAY_PATHS.any (fun p => eqUpToTrailingSlash path p)

/-- The observable actions `enforceAccess` can perform.  `locationAssign`
(a push navigation) is included to record that the code only ever uses
`location.replace`. -/
inductive Effect where
  | locationReplace (target : String)
  | locationAssign (target : String)
  | armFormObserver
  | hideHeader
  | hideTabs
deriving DecidableEq

/-- Presence of the navigation chrome elements the script may hide. -/
structure NavDom where
  headerPresent : Bool
  tabsPresent : Bool
deriving DecidableEq

/-- `gateway.js` lines 45-76: `enforceAccess`, under an available store,
returning the list of effects it performs in order. -/
def enforceAccess (v : Store) (path : String) (dom : NavDom) : List Effect :=
  let hasAccess := hasAccessOf v
  let onGateway := isGatewayPage path
  if hasAccess then
    if onGateway then [Effect.locationReplace (getDashboardPath path)] else []
  else
    if !onGateway then [Effect.locationReplace (getGatewayPath path)]
    else
      Effect.armFormObserver ::
        ((if dom.headerPresent then [Effect.hideHeader] else []) ++
          (if dom.tabsPresent then [Effect.hideTabs] else []))

/-- Modelled from the spec: the four-case decision matrix of §4.3 over
`(hasAccess, onGateway)`. -/
def specNavDecision (hasAccess onGateway : Bool) (path : String) (dom : NavDom) :
    List Effect :=
  match hasAccess, onGateway with
  | true, true => [Effect.locationReplace (getDashboardPath path)]
  | false, false => [Effect.locationReplace (getGatewayPath path)]
  | true, false => []
  | false, true =>
      Effect.armFormObserver ::
        ((if dom.headerPresent then [Effect.hideHeader] else []) ++
          (if dom.tabsPresent then [Effect.hideTabs] else []))

/-- C1: for every navigation, `enforceAccess` makes exactly the decision of
the four-case matrix over `(hasAccess, onGateway)`: redirect via replace to
the dashboard path when authorized on the gateway, redirect via replace to
the gateway path when unauthorized on content, nothing when authorized on
content, and (no redirect) arm the form observer and hide the navigation
chrome when unauthorized on the gateway. -/
theorem enforceAccess_matches_decision_matrix
    (v : Store) (path : String) (dom : NavDom) :
    enforceAccess v path dom =
      specNavDecision (hasAccessOf v) (isGatewayPage path) path dom := by
  unfold enforceAccess specNavDecision
  cases hasAccessOf v <;> cases isGatewayPage path <;> simp

/-- C2 (code bug): `p.slice(0, -1)` drops the final character of every
pattern, not only a trailing slash, so the code classifies `/index.htm` as
Gateway while the spec's rule classifies it as Content. -/
theorem isGatewayPage_accepts_index_htm :
    isGatewayPage "/index.htm" = true ∧ specIsGateway "/index.htm" = false := by
  constructor <;> decide

/-- C10: redirect-target selection is a raw string prefix test on the
literal `/trxo`: any path starting with `/trxo` (including `/trxonomy/page`)
selects `/trxo/home/` and `/trxo/`; every other path selects `/home/`
and `/`. -/
theorem redirect_targets_by_raw_startsWith (path : String) :
    (jsStartsWith path "/trxo" = true →
      getDashboardPath path = "/trxo/home/" ∧ getGatewayPath path = "/trxo/") ∧
    (jsStartsWith path "/trxo" = false →
      getDashboardPath path = "/home/" ∧ getGatewayPath path = "/") := by
  constructor <;> intro h <;> simp [getDashboardPath, getGatewayPath, h]

/-- Witness for C10 at the path `/trxonomy/page`, which is not under the
`/trxo/` base segment yet starts with the literal `/trxo`. -/
theorem redirect_targets_by_raw_startsWith_witness :
    jsStartsWith "/trxonomy/page" "/trxo" = true ∧
      getDashboardPath "/trxonomy/page" = "/trxo/home/" ∧
      getGatewayPath "/trxonomy/page" = "/trxo/" := by
  refine ⟨by decide, ?_⟩
  exact (redirect_targets_by_raw_startsWith "/trxonomy/page").1 (by decide)

/-- State of the watched gateway form container across calls to
`initFormObserver`: whether `#sib-form-container` is in the document, and how
many `MutationObserver`s are currently observing it. -/
structure WatcherState where
  containerPresent : Bool
  activeObservers : Nat
deriving DecidableEq

/-- `gateway.js` lines 81-114: `initFormObserver` constructs a fresh
`MutationObserver` and, when the container is present, starts observing it.
It never disconnects or stores the observers created by earlier calls
(its comment notwithstanding), so each call adds one more active observer. -/
def initFormObserver (s : WatcherState) : WatcherState :=
  if s.containerPresent then
    { s with activeObservers := s.activeObservers + 1 }
  else s

/-- C5 (code bug): two calls to the form-observer initialization with the
container present (as happens on the fallback load path, where
`enforceAccess` runs both at script evaluation and on `DOMContentLoaded`)
leave two observers actively observing the same render, not at most one. -/
theorem initFormObserver_accumulates_observers :
    (initFormObserver (initFormObserver ⟨true, 0⟩)).activeObservers = 2 := by
  decide

/-- The DOM state the mutation-observer callback inspects
(`gateway.js` lines 85-103). -/
structure SuccessDom where
  successMsgPresent : Bool
  successDisplay : String
  successOffsetParentNull : Bool
  containerPresent : Bool
deriving DecidableEq

/-- The actions the mutation-observer callback can perform. -/
inductive WatchEffect where
  | setAccessGranted
  | replaceContainerHtml (html : String)
  | scheduleRedirect (target : String) (delayMs : Nat)
deriving DecidableEq

/-- The confirmation markup written into `.gateway-container`
(`gateway.js` line 95). -/
def successHtml : String := "<h2>Success! Redirecting to documentation...</h2>"

/-- `gateway.js` lines 85-103: the `MutationObserver` callback body, as the
list of effects it performs in order for the current path. -/
def observerCallback (path : String) (d : SuccessDom) : List WatchEffect :=
  if d.successMsgPresent && d.successDisplay != "none" &&
      !d.successOffsetParentNull then
    WatchEffect.setAccessGranted ::
      ((if d.containerPresent then [WatchEffect.replaceContainerHtml successHtml]
        else []) ++
        [WatchEffect.scheduleRedirect (getDashboardPath path) 1500])
  else []

/-- C6: whenever the watcher sees the success indicator present, not hidden
(`display` not `'none'`) and actually rendered (non-null `offsetParent`), it
performs exactly: set the access flag true, replace the gateway container's
content with the confirmation message, and schedule a one-shot redirect to
the content entry path after 1500 ms. -/
theorem observerCallback_success_effects
    (path : String) (d : SuccessDom)
    (hMsg : d.successMsgPresent = true)
    (hDisp : (d.successDisplay != "none") = true)
    (hBox : d.successOffsetParentNull = false)
    (hCont : d.containerPresent = true) :
    observerCallback path d =
      [WatchEffect.setAccessGranted,
        WatchEffect.replaceContainerHtml successHtml,
        WatchEffect.scheduleRedirect (getDashboardPath path) 1500] := by
  simp [observerCallback, hMsg, hDisp, hBox, hCont]

/-- Witness for C6 at a concrete visible-success DOM state on path `/`. -/
theorem observerCallback_success_effects_witness :
    observerCallback "/" ⟨true, "block", false, true⟩ =
      [WatchEffect.setAccessGranted,
        WatchEffect.replaceContainerHtml successHtml,
        WatchEffect.scheduleRedirect "/home/" 1500] := by
  have h := observerCallback_success_effects "/" ⟨true, "block", false, true⟩
    rfl (by decide) rfl rfl
  rw [h]
  decide

/-- A browser-local storage that may be blocked by the user agent: when it
is, the `localStorage` attribute access itself throws a `SecurityError`
DOMException. -/
structure Storage where
  available : Bool
  value : Store
deriving DecidableEq

/-- `localStorage.getItem(ACCESS_KEY)` including the blocked-store case. -/
def getItemAccessKey (st : Storage) : Except String Store :=
  if st.available then Except.ok st.value else Except.error "SecurityError"

/-- `gateway.js` line 46: the enforcement read
`localStorage.getItem(ACCESS_KEY) === 'true'`.  There is no try/catch
anywhere in the script, so a blocked store's exception propagates. -/
def readHasAccess (st : Storage) : Except String Bool :=
  (getItemAccessKey st).map hasAccessOf

/-- C8 (code bug): with the store disabled the access read does not return
`false` — the `SecurityError` propagates uncaught.  With the store available
it does return `true` exactly when the stored value is the string `true`. -/
theorem readHasAccess_throws_when_disabled :
    readHasAccess ⟨false, some "true"⟩ = Except.error "SecurityError" ∧
      readHasAccess ⟨true, some "true"⟩ = Except.ok true ∧
      readHasAccess ⟨true, none⟩ = Except.ok false ∧
      readHasAccess ⟨true, some "TRUE"⟩ = Except.ok false := by
  refine ⟨rfl, ?_, ?_, ?_⟩ <;> rfl

/-- The storage writes the two scripts perform anywhere: the sole one is
`localStorage.setItem(ACCESS_KEY, 'true')` in the mutation-observer callback
(`gateway.js` line 90).  No `removeItem` or `clear` occurs. -/
inductive StorageWrite where
  | grantAccess
deriving DecidableEq

/-- Effect of one program write on the value stored under `ACCESS_KEY`. -/
def applyWrite (_v : Store) : StorageWrite → Store
  | StorageWrite.grantAccess => some "true"

/-- Effect of a sequence of program writes. -/
def applyWrites (v : Store) (ws : List StorageWrite) : Store :=
  ws.foldl applyWrite v

/-- C9: the persisted access flag is monotone — every write the program
performs sets it to `'true'`, so once the enforcement read observes access
granted, it observes it granted after any further sequence of program
writes. -/
theorem access_flag_monotone (v : Store) (ws : List StorageWrite)
    (h : hasAccessOf v = true) :
    hasAccessOf (applyWrites v ws) = true := by
  induction ws generalizing v with
  | nil => exact h
  | cons w ws ih =>
    cases w
    exact ih (applyWrite v StorageWrite.grantAccess) rfl

/-- Witness for C9: after a grant, a further write sequence leaves the
enforcement read observing `true`. -/
theorem access_flag_monotone_witness :
    hasAccessOf (some "true") = true ∧
      hasAccessOf (applyWrites (some "true") [StorageWrite.grantAccess]) = true := by
  exact ⟨by decide, access_flag_monotone (some "true") [StorageWrite.grantAccess] (by decide)⟩

end Gateway

namespace EmailValidation

open JsString

/-- `email-validation.js` line 58. -/
def blockedDomains : List String := ["gmail.com", "yahoo.com", "hotmail.com"]

/-- `email-validation.js` line 70: the fixed denial text. -/
def denialText : String :=
  "Please use your business email address. Gmail, Yahoo and Hotmail are not allowed."

/-- `email-validation.js` line 73: invalid styling. -/
def invalidBorder : String := "1px solid #ff4949"

/-- `email-validation.js` lines 31 and 77: valid styling. -/
def validBorder : String := "1px solid #13ce66"

/-- The DOM state `processValidation` inspects: the `#EMAIL` input's value
(`none` when the element is absent) and whether `#email-error` exists. -/
structure EmailDom where
  emailValue : Option String
  errorLabelPresent : Bool
deriving DecidableEq

/-- The DOM changes `processValidation` can perform. -/
inductive UiEffect where
  | setErrorText (t : String)
  | showErrorLabel
  | hideErrorLabel
  | setInputBorder (css : String)
deriving DecidableEq

/-- Result of `processValidation`: whether submission is allowed, plus the
DOM changes performed, in order. -/
structure ValidationResult where
  allow : Bool
  ui : List UiEffect
deriving DecidableEq

/-- `email-validation.js` lines 52-80: `processValidation`. -/
def processValidation (dom : EmailDom) : ValidationResult :=
  match dom.emailValue with
  | none => ⟨true, []⟩
  | some raw =>
    let emailValue := jsToLower (jsTrim raw)
    let parts := jsSplitOnAt emailValue
    if parts.length < 2 then ⟨true, []⟩
    else
      let domain := parts.getLastD ""
      if blockedDomains.contains domain then
        ⟨false,
          (if dom.errorLabelPresent then
            [UiEffect.setErrorText denialText, UiEffect.showErrorLabel]
          else []) ++ [UiEffect.setInputBorder invalidBorder]⟩
      else
        ⟨true,
          (if dom.errorLabelPresent then [UiEffect.hideErrorLabel] else []) ++
            [UiEffect.setInputBorder validBorder]⟩

/-- Outcome of the submit interception `validateEmail`
(`email-validation.js` lines 36-42). -/
structure SubmitOutcome where
  allow : Bool
  defaultPrevented : Bool
  immediatePropagationStopped : Bool
  ui : List UiEffect
deriving DecidableEq

/-- `email-validation.js` lines 36-42: `validateEmail` — on a failed
validation it prevents the default action and stops immediate
propagation. -/
def validateEmail (dom : EmailDom) : SubmitOutcome :=
  let r := processValidation dom
  if r.allow then ⟨true, false, false, r.ui⟩ else ⟨false, true, true, r.ui⟩

/-- C3: the four-case behaviour of the submit interception: absent input →
allow unchanged; fewer than two `@`-segments of the trimmed lowercased value
→ allow unchanged; final segment denylisted → cancel (default prevented,
propagation stopped), show the fixed denial text, invalid styling; otherwise
clear the error, valid styling, allow. -/
theorem validateEmail_decision_cases (dom : EmailDom)
    (hLabel : dom.errorLabelPresent = true) :
    (dom.emailValue = none → validateEmail dom = ⟨true, false, false, []⟩) ∧
    (∀ raw, dom.emailValue = some raw →
      ((jsSplitOnAt (jsToLower (jsTrim raw))).length < 2 →
        validateEmail dom = ⟨true, false, false, []⟩) ∧
      (2 ≤ (jsSplitOnAt (jsToLower (jsTrim raw))).length →
        blockedDomains.contains ((jsSplitOnAt (jsToLower (jsTrim raw))).getLastD "") = true →
        validateEmail dom =
          ⟨false, true, true,
            [UiEffect.setErrorText denialText, UiEffect.showErrorLabel,
              UiEffect.setInputBorder invalidBorder]⟩) ∧
      (2 ≤ (jsSplitOnAt (jsToLower (jsTrim raw))).length →
        blockedDomains.contains ((jsSplitOnAt (jsToLower (jsTrim raw))).getLastD "") = false →
        validateEmail dom =
          ⟨true, false, false,
            [UiEffect.hideErrorLabel, UiEffect.setInputBorder validBorder]⟩)) := by
  obtain ⟨v, lbl⟩ := dom
  subst hLabel
  refine ⟨?_, ?_⟩
  · rintro rfl
    rfl
  · rintro raw rfl
    refine ⟨?_, ?_, ?_⟩
    · intro hlen
      simp [validateEmail, processValidation, hlen]
    · intro hlen hdom
      have hlt : ¬ (jsSplitOnAt (jsToLower (jsTrim raw))).length < 2 := by omega
      simp at hdom
      simp [validateEmail, processValidation, hlt, hdom]
    · intro hlen hdom
      have hlt : ¬ (jsSplitOnAt (jsToLower (jsTrim raw))).length < 2 := by omega
      simp at hdom
      simp [validateEmail, processValidation, hlt, hdom]

/-- Witness for C3 at the concrete field value `" User@GMAIL.com "`. -/
theorem validateEmail_decision_cases_witness :
    validateEmail ⟨some " User@GMAIL.com ", true⟩ =
      ⟨false, true, true,
        [UiEffect.setErrorText denialText, UiEffect.showErrorLabel,
          UiEffect.setInputBorder invalidBorder]⟩ := by
  have h := validateEmail_decision_cases ⟨some " User@GMAIL.com ", true⟩ rfl
  exact ((h.2 " User@GMAIL.com " rfl).2.1 (by decide) (by decide))

/-- Identity of a callback that can be registered on the gateway form or its
submit button.  `inputClearClosure n` is the anonymous input handler created
by the `n`-th initialization call; `thirdParty n` stands for handlers the
validator does not own, such as the Brevo submission transport. -/
inductive Handler where
  | validateEmailH
  | validateEmailClickH
  | inputClearClosure (id : Nat)
  | thirdParty (id : Nat)
deriving DecidableEq

/-- A registered DOM event listener: callback identity plus capture flag. -/
structure Listener where
  handler : Handler
  useCapture : Bool
deriving DecidableEq

/-- DOM `addEventListener`: a no-op when an identical (callback, capture)
pair is already registered; otherwise it appends. -/
def addListener (ls : List Listener) (l : Listener) : List Listener :=
  if l ∈ ls then ls else ls ++ [l]

/-- DOM `removeEventListener`: removes the matching (callback, capture)
listener when present, otherwise does nothing. -/
def removeListener (ls : List Listener) (l : Listener) : List Listener :=
  ls.erase l

/-- `form.addEventListener("submit", validateEmail, true)` target. -/
def submitValidator : Listener := ⟨Handler.validateEmailH, true⟩

/-- `submitBtn.addEventListener("click", validateEmailClick, true)` target. -/
def clickValidator : Listener := ⟨Handler.validateEmailClickH, true⟩

/-- The listener lists of the form, its submit button and the email input,
plus a counter giving each anonymous input closure a fresh identity. -/
structure FormListeners where
  submitListeners : List Listener
  clickListeners : List Listener
  inputListeners : List Listener
  nextClosureId : Nat
deriving DecidableEq

/-- `email-validation.js` lines 8-34: `initEmailValidation` for a render
where form, submit button and email input are all present: remove-then-add
the submit and click validators by listener identity, and attach a fresh
anonymous input listener. -/
def initEmailValidation (s : FormListeners) : FormListeners :=
  { submitListeners :=
      addListener (removeListener s.submitListeners submitValidator) submitValidator
    clickListeners :=
      addListener (removeListener s.clickListeners clickValidator) clickValidator
    inputListeners :=
      addListener s.inputListeners ⟨Handler.inputClearClosure s.nextClosureId, false⟩
    nextClosureId := s.nextClosureId + 1 }

/-- `n` repeated initializations for the same render. -/
def attachTimes : Nat → FormListeners → FormListeners
  | 0, s => s
  | n + 1, s => initEmailValidation (attachTimes n s)

/-- A listener is one of the validator's interception callbacks. -/
def isValidatorListener (l : Listener) : Bool :=
  l.handler == Handler.validateEmailH || l.handler == Handler.validateEmailClickH

/-- WHATWG event dispatch at the event target: every listener registered on
the target runs in registration order — the capture flag does not reorder
at-target listeners — until one calls `stopImmediatePropagation`.  The
validator callbacks stop exactly when `processValidation` rejects
(`email-validation.js` lines 36-50); the other callbacks never do. -/
def invokedHandlers (dom : EmailDom) : List Listener → List Handler
  | [] => []
  | l :: rest =>
    l.handler ::
      (if isValidatorListener l && !(processValidation dom).allow then []
       else invokedHandlers dom rest)

/-- How many times the submit-validation logic runs in one dispatch. -/
def validationFireCount (dom : EmailDom) (ls : List Listener) : Nat :=
  ((invokedHandlers dom ls).filter (fun h => h == Handler.validateEmailH)).length

theorem filter_erase_of_pred (p : Listener → Bool) (v : Listener)
    (hv : p v = true) (ls : List Listener) :
    (ls.erase v).filter p = (ls.filter p).erase v := by
  induction ls with
  | nil => rfl
  | cons a ls ih =>
    by_cases ha : a = v
    · subst ha
      simp [List.erase_cons_head, hv]
    · have hba : (a == v) = false := by simp [ha]
      rw [List.erase_cons_tail (by simp [hba])]
      by_cases hpa : p a = true
      · simp only [List.filter_cons, hpa, if_pos]
        rw [List.erase_cons_tail (by simp [hba]), ih]
      · have hpa' : p a = false := by simpa using hpa
        simp [List.filter_cons, hpa', ih]

theorem attach_keeps_single_validator (ls : List Listener) (v : Listener)
    (hv : isValidatorListener v = true)
    (h : ls.filter isValidatorListener = [] ∨ ls.filter isValidatorListener = [v]) :
    (addListener (removeListener ls v) v).filter isValidatorListener = [v] := by
  rcases h with h | h
  · have hnm : v ∉ ls := by
      intro hm
      have : v ∈ ls.filter isValidatorListener := List.mem_filter.mpr ⟨hm, hv⟩
      simp [h] at this
    rw [removeListener, List.erase_of_not_mem hnm, addListener, if_neg hnm]
    simp [List.filter_append, h, hv]
  · have hzero : (ls.erase v).filter isValidatorListener = [] := by
      rw [filter_erase_of_pred _ _ hv, h, List.erase_cons_head]
    have hnm : v ∉ ls.erase v := by
      intro hm
      have : v ∈ (ls.erase v).filter isValidatorListener := List.mem_filter.mpr ⟨hm, hv⟩
      simp [hzero] at this
    rw [removeListener, addListener, if_neg hnm]
    simp [List.filter_append, hzero, hv]

theorem attachTimes_validator_filter (n : Nat) (s : FormListeners)
    (hs : s.submitListeners.filter isValidatorListener = [])
    (hc : s.clickListeners.filter isValidatorListener = [])
    (hn : 1 ≤ n) :
    (attachTimes n s).submitListeners.filter isValidatorListener = [submitValidator] ∧
      (attachTimes n s).clickListeners.filter isValidatorListener = [clickValidator] := by
  induction n with
  | zero => omega
  | succ n ih =>
    cases n with
    | zero =>
      exact ⟨attach_keeps_single_validator _ _ (by decide) (Or.inl hs),
        attach_keeps_single_validator _ _ (by decide) (Or.inl hc)⟩
    | succ m =>
      have h := ih (by omega)
      exact ⟨attach_keeps_single_validator _ _ (by decide) (Or.inr h.1),
        attach_keeps_single_validator _ _ (by decide) (Or.inr h.2)⟩

theorem fireCount_of_no_validator (dom : EmailDom) (ls : List Listener)
    (h : ls.filter isValidatorListener = []) :
    validationFireCount dom ls = 0 := by
  induction ls with
  | nil => rfl
  | cons l ls ih =>
    have hl : isValidatorListener l = false := by
      by_cases hp : isValidatorListener l = true
      · simp [List.filter_cons, hp] at h
      · simpa using hp
    have hrest : ls.filter isValidatorListener = [] := by
      simpa [List.filter_cons, hl] using h
    have hhl : (l.handler == Handler.validateEmailH) = false := by
      rcases l with ⟨h', c⟩
      cases h' <;> simp_all [isValidatorListener]
    simp only [validationFireCount, invokedHandlers, hl, Bool.false_and, if_neg]
    simp only [List.filter_cons, hhl]
    exact ih hrest

theorem fireCount_of_single_validator (dom : EmailDom) (ls : List Listener)
    (h : ls.filter isValidatorListener = [submitValidator]) :
    validationFireCount dom ls = 1 := by
  induction ls with
  | nil => simp at h
  | cons l ls ih =>
    by_cases hp : isValidatorListener l = true
    · have hl : l = submitValidator ∧ ls.filter isValidatorListener = [] := by
        have := h
        simp only [List.filter_cons, hp, if_pos] at this
        exact ⟨(List.cons_eq_cons.mp this).1, (List.cons_eq_cons.mp this).2⟩
      obtain ⟨rfl, hrest⟩ := hl
      by_cases hstop : (processValidation dom).allow = false
      · simp [validationFireCount, invokedHandlers, hstop, submitValidator,
          isValidatorListener]
      · have hallow : (processValidation dom).allow = true := by
          simpa using hstop
        have h0 := fireCount_of_no_validator dom ls hrest
        simp only [validationFireCount, invokedHandlers, hallow] at h0 ⊢
        simp only [submitValidator, isValidatorListener] at *
        simp [List.filter_cons, h0]
    · have hl : isValidatorListener l = false := by simpa using hp
      have hrest : ls.filter isValidatorListener = [submitValidator] := by
        simpa [List.filter_cons, hl] using h
      have hhl : (l.handler == Handler.validateEmailH) = false := by
        rcases l with ⟨h', c⟩
        cases h' <;> simp_all [isValidatorListener]
      have := ih hrest
      simp only [validationFireCount, invokedHandlers, hl, Bool.false_and, if_neg] at this ⊢
      simpa [List.filter_cons, hhl] using this

/-- C4: repeated initialization for the same render, followed by one
submission dispatch, fires the validation logic exactly once: after `n ≥ 1`
attaches from a render with no validator listeners yet, the submit dispatch
invokes the validation logic exactly once, and the button's click list
carries exactly one click validator. -/
theorem repeated_attach_single_fire (s : FormListeners) (n : Nat) (dom : EmailDom)
    (hs : s.submitListeners.filter isValidatorListener = [])
    (hc : s.clickListeners.filter isValidatorListener = [])
    (hn : 1 ≤ n) :
    validationFireCount dom (attachTimes n s).submitListeners = 1 ∧
      (attachTimes n s).clickListeners.filter isValidatorListener = [clickValidator] := by
  have h := attachTimes_validator_filter n s hs hc hn
  exact ⟨fireCount_of_single_validator dom _ h.1, h.2⟩

/-- Witness for C4: two attaches on a fresh render, then one submission of
a denylisted address, fire the validation exactly once. -/
theorem repeated_attach_single_fire_witness :
    validationFireCount ⟨some "user@gmail.com", true⟩
        (attachTimes 2 ⟨[], [], [], 0⟩).submitListeners = 1 ∧
      (attachTimes 2 ⟨[], [], [], 0⟩).clickListeners.filter isValidatorListener =
        [clickValidator] :=
  repeated_attach_single_fire ⟨[], [], [], 0⟩ 2 ⟨some "user@gmail.com", true⟩
    rfl rfl (by omega)

/-- The third-party transport handler registered on the same form. -/
def transportListener : Listener := ⟨Handler.thirdParty 0, false⟩

/-- A render state whose email field holds a denylisted address. -/
def gmailDom : EmailDom := ⟨some "user@gmail.com", true⟩

/-- C7 counterexample: if the transport handler was registered before the
validator on the same form — registration order is not under the script's
control — then at-target dispatch runs the transport handler first even
though the submission is rejected: the capture flag does not reorder
listeners on the element the event targets, so the claimed
registration-order independence fails. -/
theorem transport_runs_despite_capture :
    (processValidation gmailDom).allow = false ∧
      invokedHandlers gmailDom [transportListener, submitValidator] =
        [Handler.thirdParty 0, Handler.validateEmailH] := by
  constructor <;> decide

/-- C7 amended: when the validator's submit listener is registered before
every transport listener on the form, a rejected submission never reaches a
transport handler — the validator's `stopImmediatePropagation` halts the
dispatch. -/
theorem validator_first_blocks_transport
    (pre post : List Listener) (dom : EmailDom)
    (hpre : ∀ l ∈ pre, ∀ k, l.handler ≠ Handler.thirdParty k)
    (hreject : (processValidation dom).allow = false) :
    ∀ k, Handler.thirdParty k ∉
      invokedHandlers dom (pre ++ submitValidator :: post) := by
  revert hpre
  induction pre with
  | nil =>
    intro _ k
    simp [invokedHandlers, isValidatorListener, submitValidator, hreject]
  | cons l pre ih =>
    intro hpre k
    simp only [List.cons_append, invokedHandlers]
    by_cases hstop : (isValidatorListener l && !(processValidation dom).allow) = true
    · rw [if_pos hstop]
      intro hmem
      rcases List.mem_cons.mp hmem with h | h
      · exact hpre l (List.mem_cons_self _ _) k h.symm
      · simp at h
    · rw [if_neg hstop]
      intro hmem
      rcases List.mem_cons.mp hmem with h | h
      · exact hpre l (List.mem_cons_self _ _) k h.symm
      · exact ih (fun l' hl' => hpre l' (List.mem_cons_of_mem _ hl')) k h

/-- Witness for C7's amended claim: validator registered first, transport
second, denylisted address — the transport handler is not invoked. -/
theorem validator_first_blocks_transport_witness :
    (processValidation gmailDom).allow = false ∧
      Handler.thirdParty 0 ∉
        invokedHandlers gmailDom [submitValidator, transportListener] := by
  refine ⟨by decide, ?_⟩
  exact validator_first_blocks_transport [] [transportListener] gmailDom
    (by simp) (by decide) 0

end EmailValidation
